import Mathlib

/-!
Shallow embedding of `src/PodcastPreview.js` (podcast preview web component
plus the page-level filter/sort/search pipeline and its static data).

JavaScript strings are modelled by Lean `String` (code points; the catalog and
all scenario inputs are ASCII, where the host `toLowerCase`/`trim`/`includes`
agree with the character-wise models below).  JavaScript numbers occurring in
the embedded fragments are integers (ids, season counts, millisecond
timestamps), modelled by `Int`/`Nat`.  Host functions that are not part of the
repository (`Date` parsing, `toLocaleDateString`, `localeCompare`) are either
passed as explicit function parameters or modelled by a documented
deterministic function.
-/

namespace Podcast

/-- Model of JS `String.prototype.toLowerCase` (`Char.toLower` lowercases the
ASCII range, which covers the catalog and every scenario in the claims). -/
def jsToLower (s : String) : String :=
  String.mk (s.data.map Char.toLower)

/-- Helper for `jsIncludes`: does `needle` occur as a contiguous run of `hay`? -/
def hasInfixRun (needle : List Char) : List Char → Bool
  | [] => List.isPrefixOf needle []
  | c :: rest => List.isPrefixOf needle (c :: rest) || hasInfixRun needle rest

/-- Model of JS `haystack.includes(needle)`: substring containment. -/
def jsIncludes (haystack needle : String) : Bool :=
  hasInfixRun needle.data haystack.data

/-- ASCII whitespace (what JS `trim` strips on the inputs at hand). -/
def wsChar (c : Char) : Bool :=
  c = ' ' || c = '\t' || c = '\n' || c = '\r'

/-- Model of JS `String.prototype.trim`: strip leading and trailing
whitespace. -/
def jsTrim (s : String) : String :=
  String.mk (((s.data.dropWhile wsChar).reverse.dropWhile wsChar).reverse)

/-- Model of JS `s.startsWith(p)`. -/
def jsStartsWith (s p : String) : Bool :=
  List.isPrefixOf p.data s.data

/-- Model of JS split at commas: the runs between commas, in order (an input
without commas yields one field; every comma opens a new field). -/
def splitOnComma : List Char → List (List Char)
  | [] => [[]]
  | c :: rest =>
    if c = ',' then [] :: splitOnComma rest
    else
      match splitOnComma rest with
      | t :: ts => (c :: t) :: ts
      | [] => [[c]]

/-- Model of JS `Number(s)` restricted to optionally negated decimal integer
strings, returning `none` for `NaN` and for the numeric forms (floats,
exponents, hex, surrounding whitespace) that cannot occur as values of the
genre `<select>` (its values are `"all"` and decimal genre ids) and that could
not match an integer entry of a `genres` array of a show anyway. -/
def jsNumber (s : String) : Option Int :=
  let digitsVal : List Char → Option Nat := fun l =>
    if l = [] ∨ ¬ l.all Char.isDigit then none
    else some (l.foldl (fun acc c => 10 * acc + (c.toNat - 48)) 0)
  match s.data with
  | [] => some 0
  | '-' :: rest => (digitsVal rest).map (fun n => -(n : Int))
  | l => (digitsVal l).map (fun n => (n : Int))

/-- `Show` record from `data.js` / spec §3.  `seasons` and `genres` are
optional: the catalog contains a show (`id "9177"`) without a `genres` field,
and `(b.seasons || 0)` in the sort comparator guards a missing `seasons`. -/
structure Show where
  id : String
  title : String
  description : String
  seasons : Option Int
  image : Option String
  genres : Option (List Int)
  updated : String
deriving DecidableEq

/-- `Genre` record from `data.js` / spec §3.  `shows = none` models a missing
or malformed (non-array) `shows` field, the case `Array.isArray(genreObj.shows)`
guards against. -/
structure Genre where
  id : Int
  title : String
  description : String
  shows : Option (List String)
deriving DecidableEq

/-- The filter state of the controller (spec §3): the search input value, the
genre `<select>` value (`"all"` or a decimal genre id) and the sort `<select>`
value (`""`, `"recent"`, `"seasons-desc"` or `"title-asc"`). -/
structure FilterState where
  searchQuery : String
  genreSel : String
  sortMode : String
deriving DecidableEq

/-- The global arrays `podcasts` and `genres` from `data.js`. -/
structure AppState where
  podcasts : List Show
  genres : List Genre
deriving DecidableEq

/-- `getPodcasts`: `Array.isArray(podcasts) ? podcasts.slice() : []`.  The
global is always an array here; `slice()` returns a fresh copy, which an
immutable list already is, so the defensive copy is the identity. -/
def getPodcasts (podcasts : List Show) : List Show :=
  podcasts

/-- Search stage of `applyFilters`: `q` is the search input value (defaulted
to empty), trimmed then lower-cased;
when `q` is non-empty, keep shows whose lower-cased title or description
includes `q` (the or-empty guards on `p.title` and `p.description` are the
identity on the modelled string fields). -/
def textFilter (query : String) (list : List Show) : List Show :=
  let q := jsToLower (jsTrim query)
  if q = "" then list
  else list.filter (fun p => jsIncludes (jsToLower p.title) q || jsIncludes (jsToLower p.description) q)

/-- Genre stage of `applyFilters`.  For `g` truthy and not `"all"`:
`genres.find(x => String(x.id) === String(g))`; if the genre is found and its
`shows` is an array, keep shows whose `String(p.id)` is in the `Set` built from
`genreObj.shows.map(String)` (show ids are strings, so `String` is the
identity and `Set` membership is list membership); otherwise fall back to
`Array.isArray(p.genres) && p.genres.includes(Number(g))`. -/
def genreFilter (g : String) (genres : List Genre) (list : List Show) : List Show :=
  if g = "" ∨ g = "all" then list
  else
    match genres.find? (fun x => toString x.id = g) with
    | some genreObj =>
      match genreObj.shows with
      | some shows =>
        list.filter (fun p => shows.contains p.id)
      | none =>
        list.filter (fun p =>
          match p.genres, jsNumber g with
          | some pg, some n => pg.contains n
          | _, _ => false)
    | none =>
      list.filter (fun p =>
        match p.genres, jsNumber g with
        | some pg, some n => pg.contains n
        | _, _ => false)

/-- `(p.seasons || 0)`: a missing `seasons` counts as 0. -/
def seasonsD (p : Show) : Int :=
  match p.seasons with
  | some n => n
  | none => 0

/-- Model of the host `localeCompare` by code-point order (sign-valued).  On
the ASCII titles of the catalog, which all start with distinct capital letters,
this agrees with the default locale collation. -/
def localeCompare (a b : String) : Int :=
  if a < b then -1 else if b < a then 1 else 0

/-- Non-strict "may come before" relation of the `recent` comparator
`new Date(b.updated) - new Date(a.updated)` under a stable sort: `dateOf`
models the host `Date` parser (`none` = invalid date); a `NaN` comparator
value is treated as 0 (ECMAScript `SortCompare`), i.e. both orders allowed. -/
def recentLe (dateOf : String → Option Int) (a b : Show) : Bool :=
  match dateOf a.updated, dateOf b.updated with
  | some ta, some tb => tb ≤ ta
  | _, _ => true

/-- Sort stage of `applyFilters`: `list.sort(comparator)` is the host
in-place stable sort, modelled by `List.mergeSort` with the non-strict
relation `comparator a b ≤ 0`; any other `sortSelect.value` leaves the list
unchanged. -/
def sortShows (dateOf : String → Option Int) (mode : String) (list : List Show) : List Show :=
  if mode = "recent" then
    list.mergeSort (fun a b => recentLe dateOf a b)
  else if mode = "seasons-desc" then
    list.mergeSort (fun a b => decide (seasonsD b ≤ seasonsD a))
  else if mode = "title-asc" then
    list.mergeSort (fun a b => decide (localeCompare a.title b.title ≤ 0))
  else list

/-- `applyFilters`: snapshot, search filter, genre filter, sort, in this
order (rendering into the grid is outside the embedded core). -/
def applyFilters (dateOf : String → Option Int) (genres : List Genre)
    (fs : FilterState) (podcasts : List Show) : List Show :=
  sortShows dateOf fs.sortMode
    (genreFilter fs.genreSel genres
      (textFilter fs.searchQuery (getPodcasts podcasts)))

/-- One derivation pass over the global arrays of the app, returning the (possibly
mutated) globals next to the visible list.  The only in-place operation in
`applyFilters` is `Array.prototype.sort`, which acts on `podcasts.slice()` (a
copy) or on fresh arrays produced by `filter`, so the globals come back
unchanged. -/
def runDerive (dateOf : String → Option Int) (fs : FilterState) (st : AppState) :
    AppState × List Show :=
  (st, applyFilters dateOf st.genres fs (getPodcasts st.podcasts))

/-- The season line of `_applyAttributes`: an empty (or absent) `seasons`
attribute renders as the empty string; otherwise the template interpolates the
raw attribute string and a ternary that picks the word `season` exactly when
the attribute compares (strictly) equal to the string `1`, else `seasons`. -/
def seasonsLabel (seasons : String) : String :=
  if seasons = "" then ""
  else seasons ++ " " ++ (if seasons = "1" then "season" else "seasons")

/-- A single-quote character (apostrophe), used in the SVG text. -/
def sqc : String :=
  String.singleton (Char.ofNat 39)

/-- Wrap a string in the single quotes the SVG template literal uses. -/
def sq (s : String) : String :=
  sqc ++ s ++ sqc

/-- The SVG template literal of `placeholderDataURI`, with `${w}`/`${h}`
interpolated (JS renders these integers in plain decimal). -/
def svgText (w h : Nat) : String :=
  "<svg xmlns=" ++ sq "http://www.w3.org/2000/svg" ++ " width=" ++ sq (toString w)
    ++ " height=" ++ sq (toString h)
    ++ " viewBox=" ++ sq ("0 0 " ++ toString w ++ " " ++ toString h) ++ ">\n"
  ++ "    <defs>\n"
  ++ "      <linearGradient id=" ++ sq "g" ++ " x1=" ++ sq "0" ++ " y1=" ++ sq "0"
    ++ " x2=" ++ sq "1" ++ " y2=" ++ sq "1" ++ ">\n"
  ++ "        <stop offset=" ++ sq "0" ++ " stop-color=" ++ sq "#e2e8f0" ++ " />\n"
  ++ "        <stop offset=" ++ sq "1" ++ " stop-color=" ++ sq "#c7d2fe" ++ " />\n"
  ++ "      </linearGradient>\n"
  ++ "    </defs>\n"
  ++ "    <rect width=" ++ sq "100%" ++ " height=" ++ sq "100%" ++ " fill=" ++ sq "url(#g)"
    ++ " rx=" ++ sq "8" ++ " ry=" ++ sq "8" ++ "/>\n"
  ++ "    <text x=" ++ sq "50%" ++ " y=" ++ sq "50%" ++ " font-family="
    ++ sq "Arial, Helvetica, sans-serif" ++ " font-size=" ++ sq "20" ++ " fill=" ++ sq "#374151"
    ++ " dominant-baseline=" ++ sq "middle" ++ " text-anchor=" ++ sq "middle"
    ++ ">Podcast Cover</text>\n"
  ++ "  </svg>"

/-- Characters `encodeURIComponent` leaves unescaped: alphanumerics and
hyphen, underscore, dot, bang, tilde, star, apostrophe and parentheses. -/
def uriUnescaped (c : Char) : Bool :=
  c.isAlphanum || c = '-' || c = '_' || c = '.' || c = '!' || c = '~' || c = '*'
    || c = Char.ofNat 39 || c = '(' || c = ')'

/-- Upper-case hex digit, as `encodeURIComponent` produces. -/
def hexDigitUpper (n : Nat) : Char :=
  if n < 10 then Char.ofNat (48 + n) else Char.ofNat (55 + n)

/-- UTF-8 bytes of a code point (the host escapes per byte). -/
def utf8Bytes (c : Char) : List Nat :=
  let n := c.toNat
  if n < 128 then [n]
  else if n < 2048 then [192 + n / 64, 128 + n % 64]
  else if n < 65536 then [224 + n / 4096, 128 + (n / 64) % 64, 128 + n % 64]
  else [240 + n / 262144, 128 + (n / 4096) % 64, 128 + (n / 64) % 64, 128 + n % 64]

/-- Percent-escape of one byte. -/
def pctByte (b : Nat) : List Char :=
  ['%', hexDigitUpper (b / 16), hexDigitUpper (b % 16)]

/-- Model of the host `encodeURIComponent`. -/
def encodeURIComponent (s : String) : String :=
  String.mk ((s.data.map (fun c =>
    if uriUnescaped c then [c] else ((utf8Bytes c).map pctByte).flatten)).flatten)

/-- `placeholderDataURI`: deterministic inline-SVG data URI used for missing
and broken cover images. -/
def placeholderDataURI (w h : Nat) : String :=
  "data:image/svg+xml;utf8," ++ encodeURIComponent (svgText w h)

/-- The `onerror` handler installed on the cover `<img>`:
when the current source is falsy or does not start with `data:`, it is
reassigned to `placeholderDataURI(450, 300)`.
Input is the current `src`, output the `src` after the handler ran (a `data:`
URI is returned by the browser unresolved, and resolution of any other URL
keeps its non-`data:` scheme, so `startsWith` on the modelled string is
faithful). -/
def handleImgErr (src : String) : String :=
  if src = "" ∨ ¬ jsStartsWith src "data:" then placeholderDataURI 450 300 else src

/-- JSON value, the result of the host `JSON.parse` (numbers carried as their
source token; the claims only inspect array-ness and string elements). -/
inductive Json where
  | null
  | bool (b : Bool)
  | num (raw : String)
  | str (s : String)
  | arr (elems : List Json)
  | obj (members : List (String × Json))

/-- Opening brace character, written via its code point. -/
def jsonLBrace : Char :=
  Char.ofNat 123

/-- Closing brace character, written via its code point. -/
def jsonRBrace : Char :=
  Char.ofNat 125

/-- Drop leading JSON whitespace. -/
def skipWs : List Char → List Char
  | c :: cs => if c = ' ' ∨ c = '\t' ∨ c = '\n' ∨ c = '\r' then skipWs cs else c :: cs
  | [] => []

/-- Value of a hex digit, if any. -/
def hexVal (c : Char) : Option Nat :=
  if '0' ≤ c ∧ c ≤ '9' then some (c.toNat - 48)
  else if 'a' ≤ c ∧ c ≤ 'f' then some (c.toNat - 87)
  else if 'A' ≤ c ∧ c ≤ 'F' then some (c.toNat - 55)
  else none

/-- Single-character JSON string escapes. -/
def escChar (e : Char) : Option Char :=
  if e = '"' ∨ e = '\\' ∨ e = '/' then some e
  else if e = 'b' then some (Char.ofNat 8)
  else if e = 'f' then some (Char.ofNat 12)
  else if e = 'n' then some '\n'
  else if e = 'r' then some '\r'
  else if e = 't' then some '\t'
  else none

/-- Parse the body of a JSON string after the opening quote, returning its
characters and the input after the closing quote. -/
def parseStringBody : List Char → Option (List Char × List Char)
  | [] => none
  | '"' :: rest => some ([], rest)
  | '\\' :: 'u' :: h1 :: h2 :: h3 :: h4 :: rest =>
    match hexVal h1, hexVal h2, hexVal h3, hexVal h4 with
    | some a, some b, some c, some d =>
      (parseStringBody rest).map (fun p => (Char.ofNat (4096 * a + 256 * b + 16 * c + d) :: p.1, p.2))
    | _, _, _, _ => none
  | '\\' :: e :: rest =>
    match escChar e with
    | some ch => (parseStringBody rest).map (fun p => (ch :: p.1, p.2))
    | none => none
  | c :: rest =>
    if c.toNat < 32 then none else (parseStringBody rest).map (fun p => (c :: p.1, p.2))

/-- Split off a leading run of decimal digits. -/
def splitDigits : List Char → List Char × List Char
  | [] => ([], [])
  | c :: rest =>
    if c.isDigit then
      let p := splitDigits rest
      (c :: p.1, p.2)
    else ([], c :: rest)

/-- Parse a JSON number token (`-? (0 | [1-9][0-9]*) (. [0-9]+)? ([eE][+-]?[0-9]+)?`),
returning its characters and the rest.  A malformed fraction or exponent is
left unconsumed; the leftover then fails at the enclosing delimiter check,
matching the rejection by `JSON.parse`. -/
def parseNumberToken (cs : List Char) : Option (List Char × List Char) :=
  let p0 : List Char × List Char :=
    match cs with
    | '-' :: r => (['-'], r)
    | r => ([], r)
  match p0.2 with
  | [] => none
  | c :: rest =>
    if ¬ c.isDigit then none
    else
      let pInt : List Char × List Char :=
        if c = '0' then ([c], rest)
        else
          let p := splitDigits rest
          (c :: p.1, p.2)
      let pFrac : List Char × List Char :=
        match pInt.2 with
        | '.' :: r =>
          let p := splitDigits r
          if p.1 = [] then ([], pInt.2) else ('.' :: p.1, p.2)
        | _ => ([], pInt.2)
      let pExp : List Char × List Char :=
        match pFrac.2 with
        | e :: r =>
          if e = 'e' ∨ e = 'E' then
            let ps : List Char × List Char :=
              match r with
              | '+' :: r2 => (['+'], r2)
              | '-' :: r2 => (['-'], r2)
              | r2 => ([], r2)
            let p := splitDigits ps.2
            if p.1 = [] then ([], pFrac.2) else (e :: ps.1 ++ p.1, p.2)
          else ([], pFrac.2)
        | [] => ([], pFrac.2)
      some (p0.1 ++ pInt.1 ++ pFrac.1 ++ pExp.1, pExp.2)

mutual

/-- Parse one JSON value (fuel-indexed model of the host `JSON.parse`
grammar, RFC 8259). -/
def parseVal : Nat → List Char → Option (Json × List Char)
  | 0, _ => none
  | Nat.succ fuel, cs =>
    match skipWs cs with
    | [] => none
    | c :: rest =>
      if c = '"' then (parseStringBody rest).map (fun p => (Json.str (String.mk p.1), p.2))
      else if c = '[' then parseArrItems fuel rest
      else if c = jsonLBrace then parseObjItems fuel rest
      else if c = 't' then
        match rest with
        | 'r' :: 'u' :: 'e' :: r => some (Json.bool true, r)
        | _ => none
      else if c = 'f' then
        match rest with
        | 'a' :: 'l' :: 's' :: 'e' :: r => some (Json.bool false, r)
        | _ => none
      else if c = 'n' then
        match rest with
        | 'u' :: 'l' :: 'l' :: r => some (Json.null, r)
        | _ => none
      else (parseNumberToken (c :: rest)).map (fun p => (Json.num (String.mk p.1), p.2))

/-- Array items after `[` (empty array or first item then tail). -/
def parseArrItems : Nat → List Char → Option (Json × List Char)
  | 0, _ => none
  | Nat.succ fuel, cs =>
    match skipWs cs with
    | ']' :: rest => some (Json.arr [], rest)
    | cs2 =>
      match parseVal fuel cs2 with
      | none => none
      | some (v, rest) =>
        match parseArrTail fuel rest with
        | some (Json.arr vs, rest2) => some (Json.arr (v :: vs), rest2)
        | _ => none

/-- Array items after one item: `]` ends, `,` demands another item. -/
def parseArrTail : Nat → List Char → Option (Json × List Char)
  | 0, _ => none
  | Nat.succ fuel, cs =>
    match skipWs cs with
    | ']' :: rest => some (Json.arr [], rest)
    | ',' :: rest =>
      match parseVal fuel rest with
      | none => none
      | some (v, rest2) =>
        match parseArrTail fuel rest2 with
        | some (Json.arr vs, rest3) => some (Json.arr (v :: vs), rest3)
        | _ => none
    | _ => none

/-- One `"key": value` object member. -/
def parseMember : Nat → List Char → Option ((String × Json) × List Char)
  | 0, _ => none
  | Nat.succ fuel, cs =>
    match skipWs cs with
    | '"' :: rest =>
      match parseStringBody rest with
      | none => none
      | some (key, rest2) =>
        match skipWs rest2 with
        | ':' :: rest3 => (parseVal fuel rest3).map (fun p => ((String.mk key, p.1), p.2))
        | _ => none
    | _ => none

/-- Object members after the opening brace. -/
def parseObjItems : Nat → List Char → Option (Json × List Char)
  | 0, _ => none
  | Nat.succ fuel, cs =>
    match skipWs cs with
    | c :: rest =>
      if c = jsonRBrace then some (Json.obj [], rest)
      else
        match parseMember fuel (c :: rest) with
        | none => none
        | some (m, rest2) =>
          match parseObjTail fuel rest2 with
          | some (Json.obj ms, rest3) => some (Json.obj (m :: ms), rest3)
          | _ => none
    | [] => none

/-- Object members after one member: `\x7d` ends, `,` demands another member. -/
def parseObjTail : Nat → List Char → Option (Json × List Char)
  | 0, _ => none
  | Nat.succ fuel, cs =>
    match skipWs cs with
    | c :: rest =>
      if c = jsonRBrace then some (Json.obj [], rest)
      else if c = ',' then
        match parseMember fuel rest with
        | none => none
        | some (m, rest2) =>
          match parseObjTail fuel rest2 with
          | some (Json.obj ms, rest3) => some (Json.obj (m :: ms), rest3)
          | _ => none
      else none
    | [] => none

end

/-- Model of the host `JSON.parse`: one value, then only trailing whitespace.
The fuel bound exceeds any possible recursion depth of the grammar on the
input. -/
def jsonParse (s : String) : Option Json :=
  match parseVal (2 * s.data.length + 4) s.data with
  | some (v, rest) => if skipWs rest = [] then some v else none
  | none => none

/-- Is a JSON value an array (`Array.isArray`)? -/
def isJsonArr : Json → Bool
  | Json.arr _ => true
  | _ => false

mutual

/-- The string a DOM `textContent = v` assignment stores for a parsed JSON
value `v`: `null` maps to the empty string (LegacyNullToEmptyString), other
values go through JS string coercion (a number renders as its token text,
sufficient here since the claims only render string entries). -/
def jsTextContent : Json → String
  | Json.null => ""
  | Json.bool true => "true"
  | Json.bool false => "false"
  | Json.num raw => raw
  | Json.str s => s
  | Json.arr l => jsTextContentList l
  | Json.obj _ => "[object Object]"

/-- Comma-join of array elements, as JS array-to-string coercion does. -/
def jsTextContentList : List Json → String
  | [] => ""
  | [x] => jsTextContent x
  | x :: xs => jsTextContent x ++ "," ++ jsTextContentList xs

end

/-- The parsed genre entry texts of `_applyAttributes`: `JSON.parse` first
(a successful parse that is not an array is replaced by `[]`); on a parse
exception, an empty `genresRaw` yields no entries and a non-empty one is
split at commas into trimmed tokens with the falsy (empty) tokens dropped.
Entries are reported as their pill texts (`textContent` coercion), which
preserves the count and order of the parsed entries. -/
def genrePillTexts (raw : String) : List String :=
  match jsonParse raw with
  | some v =>
    (match v with
     | Json.arr l => l
     | _ => []).map jsTextContent
  | none =>
    if raw = "" then []
    else (((splitOnComma raw.data).map (fun l => jsTrim (String.mk l))).filter
      (fun s => decide (s ≠ "")))

/-- The rendered pill texts: `arr.slice(0, 4).forEach(...)` appends the first
four entries, then `if (arr.length > 4)` appends one `"+" + (arr.length - 4)`
pill. -/
def renderGenrePills (raw : String) : List String :=
  let texts := genrePillTexts raw
  texts.take 4 ++ (if 4 < texts.length then ["+" ++ toString (texts.length - 4)] else [])

/-- JS `x || y` on nullable strings (`getAttribute` yields `null` for an
absent attribute; `null` and `""` are falsy). -/
def jsOrStr (x y : Option String) : Option String :=
  match x with
  | some s => if s = "" then y else some s
  | none => y

/-- `_onClick`: resolve `pid || id || data-id`; a falsy result returns without
dispatching (`none` = no `podcast-selected` event), otherwise the event detail
carries the resolved id.  The handler has no throwing operation. -/
def emittedId (pid idAttr dataId : Option String) : Option String :=
  match jsOrStr (jsOrStr pid idAttr) dataId with
  | some s => if s = "" then none else some s
  | none => none

/-- `_onKey`: `Enter` and space delegate to `_onClick`; every other key does
nothing. -/
def keyEmittedId (key : String) (pid idAttr dataId : Option String) : Option String :=
  if key = "Enter" ∨ key = " " then emittedId pid idAttr dataId else none

/-- The trailing `if (!id) return` guard of `_onClick` as a function of the
resolved nullable id (proof-layer abbreviation of the final match in
`emittedId`). -/
def emitOf (o : Option String) : Option String :=
  match o with
  | some s => if s = "" then none else some s
  | none => none

/-- Spec-side resolution order, stated as the spec words it: the first
non-empty value among `pid`, `id`, `data-id`, if any. -/
def specFirstNonEmpty (attrs : List (Option String)) : Option String :=
  attrs.findSome? (fun a =>
    match a with
    | some s => if s = "" then none else some s
    | none => none)

/-- `formatUpdated`.  `dateOf` models the host `Date` parser in epoch
milliseconds (`none` = invalid date), `fmtMonthDay` the host
`toLocaleDateString` month/day rendering, `now` the current epoch
milliseconds; `Math.floor` of the quotients is `Int.fdiv`. -/
def formatUpdated (dateOf : String → Option Int) (fmtMonthDay : Int → String)
    (now : Int) (raw : String) : String :=
  if raw = "" then ""
  else
    match dateOf raw with
    | none => raw
    | some t =>
      let diff := (now - t).fdiv 1000
      if diff < 60 then "Updated just now"
      else if diff < 3600 then "Updated " ++ toString (diff.fdiv 60) ++ "m ago"
      else if diff < 86400 then "Updated " ++ toString (diff.fdiv 3600) ++ "h ago"
      else if diff < 7 * 86400 then "Updated " ++ toString (diff.fdiv 86400) ++ " days ago"
      else "Updated " ++ fmtMonthDay t

/-- Scenario catalog entry whose description (and nothing else) contains
"Comedy". -/
def demoComedyShow : Show :=
  { id := "1", title := "Night Chat", description := "Late-night Comedy and interviews",
    seasons := some 2, image := none, genres := some [4], updated := "2022-01-01T00:00:00.000Z" }

/-- Scenario catalog entry not mentioning comedy anywhere. -/
def demoHistoryShow : Show :=
  { id := "2", title := "Deep Past", description := "Stories from ancient times",
    seasons := none, image := none, genres := some [3], updated := "2022-01-02T00:00:00.000Z" }

/-- Scenario show with only the fields the sort scenarios read. -/
def demoTitled (i t : String) : Show :=
  { id := i, title := t, description := "", seasons := none, image := none, genres := none,
    updated := "" }

/-- Scenario show carrying only a (possibly missing) season count. -/
def demoSeasoned (i : String) (n : Option Int) : Show :=
  { id := i, title := "", description := "", seasons := n, image := none, genres := none,
    updated := "" }

/-- A date model that parses nothing, for sort scenarios that never touch
dates. -/
def noDates : String → Option Int :=
  fun _ => none

/-- Lower-casing does not create or destroy emptiness. -/
theorem jsToLower_eq_empty_iff (s : String) : jsToLower s = "" ↔ s = "" := by
  simp [jsToLower, String.ext_iff]

/-- Membership in the search-filtered list. -/
theorem mem_textFilter_iff (query : String) (list : List Show) (p : Show) :
    p ∈ textFilter query list ↔
      p ∈ list ∧ (jsTrim query = "" ∨
        jsIncludes (jsToLower p.title) (jsToLower (jsTrim query)) = true ∨
        jsIncludes (jsToLower p.description) (jsToLower (jsTrim query)) = true) := by
  by_cases h : jsTrim query = ""
  · simp [textFilter, h, show jsToLower "" = "" from rfl]
  · rw [textFilter]
    simp only [if_neg (fun hc => h ((jsToLower_eq_empty_iff (jsTrim query)).mp hc))]
    simp [List.mem_filter, h, Bool.or_eq_true]

/-- `find?` over the genre list returns the unique genre whose stringified id
matches, when the stringified ids are pairwise distinct. -/
theorem find_genre_eq (g : String) (gs : List Genre) (go : Genre)
    (hnd : (gs.map (fun x => toString x.id)).Nodup) (hmem : go ∈ gs)
    (hid : toString go.id = g) :
    gs.find? (fun x => toString x.id = g) = some go := by
  induction gs with
  | nil => cases hmem
  | cons hd tl ih =>
    rw [List.map_cons, List.nodup_cons] at hnd
    by_cases h : toString hd.id = g
    · have hgo : go = hd := by
        cases hmem with
        | head => rfl
        | tail _ hm =>
          exact absurd (h ▸ hid ▸ List.mem_map_of_mem (fun x => toString x.id) hm) hnd.1
      subst hgo
      exact List.find?_cons_of_pos _ (by simpa using h)
    · cases hmem with
      | head => exact absurd hid h
      | tail _ hm =>
        rw [List.find?_cons_of_neg _ (by simpa using h)]
        exact ih hnd.2 hm

/-- The sign of the modelled `localeCompare` captures the string order. -/
theorem localeCompare_nonpos_iff (a b : String) : localeCompare a b ≤ 0 ↔ a ≤ b := by
  unfold localeCompare
  split_ifs with h1 h2
  · exact iff_of_true (by norm_num) (le_of_lt h1)
  · exact iff_of_false (by norm_num) (not_le.mpr h2)
  · exact iff_of_true le_rfl (le_of_not_lt h2)

/-- `sortShows` in `seasons-desc` mode is the stable sort by descending
(default-0) season count. -/
theorem sortShows_seasons_eq (dateOf : String → Option Int) (l : List Show) :
    sortShows dateOf "seasons-desc" l
      = l.mergeSort (fun a b => decide (seasonsD b ≤ seasonsD a)) := by
  unfold sortShows
  rw [if_neg (by decide), if_pos rfl]

/-- `sortShows` in `title-asc` mode is the stable sort by the title
comparator. -/
theorem sortShows_title_eq (dateOf : String → Option Int) (l : List Show) :
    sortShows dateOf "title-asc" l
      = l.mergeSort (fun a b => decide (localeCompare a.title b.title ≤ 0)) := by
  unfold sortShows
  rw [if_neg (by decide), if_neg (by decide), if_pos rfl]

/-- C1: the search stage keeps exactly the shows whose lower-cased title or
lower-cased description contains the lower-cased trimmed query, is a no-op
for a query that is empty after trimming, and on the scenario catalog the
query "comedy" returns exactly the one show whose description contains
"Comedy". -/
theorem c1_search_filter (query : String) (list : List Show) :
    (jsTrim query = "" → textFilter query list = list) ∧
    (jsTrim query ≠ "" →
      textFilter query list = list.filter (fun p =>
        jsIncludes (jsToLower p.title) (jsToLower (jsTrim query))
          || jsIncludes (jsToLower p.description) (jsToLower (jsTrim query)))) ∧
    (∀ p : Show, p ∈ textFilter query list ↔
      p ∈ list ∧ (jsTrim query = "" ∨
        jsIncludes (jsToLower p.title) (jsToLower (jsTrim query)) = true ∨
        jsIncludes (jsToLower p.description) (jsToLower (jsTrim query)) = true)) ∧
    textFilter "comedy" [demoComedyShow, demoHistoryShow] = [demoComedyShow] := by
  refine ⟨fun h => ?_, fun h => ?_, mem_textFilter_iff query list, by decide⟩
  · simp [textFilter, (jsToLower_eq_empty_iff (jsTrim query)).mpr h]
  · rw [textFilter]
    simp only [if_neg (fun hc => h ((jsToLower_eq_empty_iff (jsTrim query)).mp hc))]

/-- C1 witness: the non-empty-query branch applied to the scenario input. -/
theorem c1_search_filter_witness :
    textFilter "comedy" [demoComedyShow, demoHistoryShow]
      = [demoComedyShow, demoHistoryShow].filter (fun p =>
          jsIncludes (jsToLower p.title) (jsToLower (jsTrim "comedy"))
            || jsIncludes (jsToLower p.description) (jsToLower (jsTrim "comedy"))) :=
  (c1_search_filter "comedy" [demoComedyShow, demoHistoryShow]).2.1 (by decide)

/-- C4: re-deriving the visible list with the same `FilterState` yields the
same list, and the derivation hands the global catalog state back unchanged
(the sort operates on the `slice()` snapshot). -/
theorem c4_idempotent_derivation (dateOf : String → Option Int) (fs : FilterState)
    (st : AppState) :
    (runDerive dateOf fs st).1 = st ∧
    (runDerive dateOf fs ((runDerive dateOf fs st).1)).2 = (runDerive dateOf fs st).2 :=
  ⟨rfl, rfl⟩

/-- C7: the rendered seasons label is `"{n} season"` exactly for the
attribute value `"1"`, `"{n} seasons"` for every other non-empty value, and
empty for an absent/empty attribute. -/
theorem c7_seasons_label (s : String) :
    (s = "" → seasonsLabel s = "") ∧
    (s ≠ "" → ((seasonsLabel s = s ++ " season") ↔ s = "1") ∧
      (s ≠ "1" → seasonsLabel s = s ++ " seasons")) := by
  refine ⟨fun h => by simp [seasonsLabel, h], fun hne => ⟨⟨fun h => ?_, fun h => ?_⟩,
    fun h1 => by
      rw [seasonsLabel, if_neg hne, if_neg h1, String.append_assoc]
      exact rfl⟩⟩
  · by_contra h1
    rw [seasonsLabel, if_neg hne, if_neg h1] at h
    rw [String.ext_iff] at h
    simp only [String.data_append, List.append_assoc] at h
    have := (List.append_right_inj s.data).mp h
    exact absurd this (by decide)
  · subst h
    rfl

/-- C2: for a selected genre id other than `"all"` (a non-empty decimal
string) over a catalog whose stringified genre ids are pairwise distinct: if
a matching Genre exists and its `shows` is an array, the stage keeps exactly
the shows whose id is in that list; if the `shows` of the matching Genre is
absent/malformed, or no Genre matches, it keeps exactly the shows whose own
numeric `genres` contains `Number(g)` — so a show carrying `g` in its
`genres` survives even when no Genre object has id `g`. -/
theorem c2_genre_filter (g : String) (gs : List Genre) (list : List Show)
    (hall : g ≠ "all") (hne : g ≠ "")
    (hnd : (gs.map (fun x => toString x.id)).Nodup) :
    (∀ go ∈ gs, toString go.id = g → ∀ l, go.shows = some l →
      genreFilter g gs list = list.filter (fun p => l.contains p.id)) ∧
    (∀ go ∈ gs, toString go.id = g → go.shows = none →
      genreFilter g gs list = list.filter (fun p =>
        match p.genres, jsNumber g with
        | some pg, some n => pg.contains n
        | _, _ => false)) ∧
    ((∀ go ∈ gs, toString go.id ≠ g) →
      genreFilter g gs list = list.filter (fun p =>
        match p.genres, jsNumber g with
        | some pg, some n => pg.contains n
        | _, _ => false)) ∧
    (∀ p ∈ list, (∀ go ∈ gs, toString go.id ≠ g) → ∀ pg, p.genres = some pg →
      ∀ n, jsNumber g = some n → pg.contains n = true → p ∈ genreFilter g gs list) := by
  have hguard : ¬ (g = "" ∨ g = "all") := by
    rintro (h | h)
    exacts [hne h, hall h]
  refine ⟨fun go hmem hid l hl => ?_, fun go hmem hid hl => ?_, fun hnone => ?_, ?_⟩
  · rw [genreFilter, if_neg hguard, find_genre_eq g gs go hnd hmem hid]
    simp only [hl]
  · rw [genreFilter, if_neg hguard, find_genre_eq g gs go hnd hmem hid]
    simp only [hl]
  · rw [genreFilter, if_neg hguard, List.find?_eq_none.mpr (by simpa using hnone)]
  · intro p hp hnone pg hpg n hn hcont
    rw [genreFilter, if_neg hguard, List.find?_eq_none.mpr (by simpa using hnone)]
    rw [List.mem_filter]
    refine ⟨hp, ?_⟩
    rw [hpg, hn]
    exact hcont

/-- C2 witness: both lookup paths on a tiny catalog — the Genre-to-show id
list for `g = "4"`, and the numeric-`genres` fallback for `g = "3"`, which
has no Genre object. -/
theorem c2_genre_filter_witness :
    genreFilter "4"
        [{ id := 4, title := "Comedy", description := "d", shows := some ["1"] }]
        [demoComedyShow, demoHistoryShow]
      = [demoComedyShow, demoHistoryShow].filter (fun p => List.contains ["1"] p.id) ∧
    demoHistoryShow ∈ genreFilter "3"
        [{ id := 4, title := "Comedy", description := "d", shows := some ["1"] }]
        [demoComedyShow, demoHistoryShow] :=
  ⟨(c2_genre_filter "4"
      [{ id := 4, title := "Comedy", description := "d", shows := some ["1"] }]
      [demoComedyShow, demoHistoryShow] (by decide) (by decide) (by decide)).1
      { id := 4, title := "Comedy", description := "d", shows := some ["1"] }
      (by decide) (by decide) ["1"] rfl,
   (c2_genre_filter "3"
      [{ id := 4, title := "Comedy", description := "d", shows := some ["1"] }]
      [demoComedyShow, demoHistoryShow] (by decide) (by decide) (by decide)).2.2.2
      demoHistoryShow (by decide) (by decide) [3] rfl 3 (by decide) (by decide)⟩

/-- C3: `seasons-desc` yields a permutation of the input that is pairwise
descending in the default-0 season count; `title-asc` yields a permutation
pairwise ascending under the title comparator, and sorts the scenario titles
as the spec lists them; every mode other than the three recognized ones
leaves the order untouched; a missing `seasons` sorts as 0 in the seasons
scenario. -/
theorem c3_sorting (dateOf : String → Option Int) (list : List Show) :
    (List.Perm (sortShows dateOf "seasons-desc" list) list ∧
      (sortShows dateOf "seasons-desc" list).Pairwise
        (fun a b => seasonsD b ≤ seasonsD a)) ∧
    (List.Perm (sortShows dateOf "title-asc" list) list ∧
      (sortShows dateOf "title-asc" list).Pairwise
        (fun a b => localeCompare a.title b.title ≤ 0)) ∧
    (∀ mode, mode ≠ "recent" → mode ≠ "seasons-desc" → mode ≠ "title-asc" →
      sortShows dateOf mode list = list) ∧
    (sortShows noDates "title-asc"
        [demoTitled "10539" "Scamfluencers", demoTitled "5279" "American History Tellers",
         demoTitled "6807" "Even the Rich"]).map Show.title
      = ["American History Tellers", "Even the Rich", "Scamfluencers"] ∧
    sortShows noDates "seasons-desc"
        [demoSeasoned "a" (some 2), demoSeasoned "b" none, demoSeasoned "c" (some 5)]
      = [demoSeasoned "c" (some 5), demoSeasoned "a" (some 2), demoSeasoned "b" none] := by
  refine ⟨⟨?_, ?_⟩, ⟨?_, ?_⟩, fun mode h1 h2 h3 => ?_, ?_, ?_⟩
  · rw [sortShows_seasons_eq]
    exact List.mergeSort_perm list _
  · rw [sortShows_seasons_eq]
    have hs := @List.sorted_mergeSort Show (fun a b => decide (seasonsD b ≤ seasonsD a))
      (fun a b c hab hbc => by
        simp only [decide_eq_true_eq] at hab hbc ⊢
        exact le_trans hbc hab)
      (fun a b => by
        simp only [Bool.or_eq_true, decide_eq_true_eq]
        exact Int.le_total _ _)
      list
    exact hs.imp (fun h => by simpa using h)
  · rw [sortShows_title_eq]
    exact List.mergeSort_perm list _
  · rw [sortShows_title_eq]
    have hs := @List.sorted_mergeSort Show
      (fun a b => decide (localeCompare a.title b.title ≤ 0))
      (fun a b c hab hbc => by
        simp only [decide_eq_true_eq, localeCompare_nonpos_iff] at hab hbc ⊢
        exact le_trans hab hbc)
      (fun a b => by
        simp only [Bool.or_eq_true, decide_eq_true_eq, localeCompare_nonpos_iff]
        exact le_total _ _)
      list
    exact hs.imp (fun h => by simpa using h)
  · rw [sortShows, if_neg h1, if_neg h2, if_neg h3]
  · simp +decide [sortShows, List.mergeSort, List.merge, localeCompare]
  · simp +decide [sortShows, List.mergeSort, List.merge, seasonsD]

/-- C3 witness: the default mode (`""`, the "none" option) preserves the
input order. -/
theorem c3_sorting_witness :
    sortShows noDates "" [demoComedyShow, demoHistoryShow]
      = [demoComedyShow, demoHistoryShow] :=
  (c3_sorting noDates [demoComedyShow, demoHistoryShow]).2.2.1 ""
    (by decide) (by decide) (by decide)

/-- Emission through a JS `||` distributes over the non-empty guard. -/
theorem emitOf_jsOrStr (x y : Option String) :
    emitOf (jsOrStr x y) = (emitOf x).or (emitOf y) := by
  cases x with
  | none => simp [jsOrStr, emitOf]
  | some s => by_cases h : s = "" <;> simp [jsOrStr, emitOf, h]

/-- The first-non-empty scan of the spec over three attributes, as iterated
`Option.or` of the guarded attributes. -/
theorem specFirstNonEmpty_eq (a b c : Option String) :
    specFirstNonEmpty [a, b, c] = (emitOf a).or ((emitOf b).or (emitOf c)) := by
  cases a <;> cases b <;> cases c <;>
    simp [specFirstNonEmpty, emitOf, List.findSome?] <;>
    split_ifs <;> simp_all

/-- C5: genre entries come from a successful JSON-array parse first, from the
comma-split trimmed non-empty tokens only on parse failure; the rendered pill
list is the first four entries in input order, plus exactly one
`"+remainder"` pill when more than four exist; the three spec scenarios
(2-element JSON, 3-token CSV, 6-element JSON) render as stated. -/
theorem c5_genre_pills (raw : String) :
    (∀ l, jsonParse raw = some (Json.arr l) →
      genrePillTexts raw = l.map jsTextContent) ∧
    (jsonParse raw = none → raw ≠ "" →
      genrePillTexts raw = (((splitOnComma raw.data).map
        (fun l => jsTrim (String.mk l))).filter (fun s => decide (s ≠ "")))) ∧
    ((genrePillTexts raw).length ≤ 4 → renderGenrePills raw = genrePillTexts raw) ∧
    (4 < (genrePillTexts raw).length →
      renderGenrePills raw = (genrePillTexts raw).take 4
        ++ ["+" ++ toString ((genrePillTexts raw).length - 4)]) ∧
    renderGenrePills "[\"A\",\"B\"]" = ["A", "B"] ∧
    renderGenrePills "A, B, C" = ["A", "B", "C"] ∧
    renderGenrePills "[\"a\",\"b\",\"c\",\"d\",\"e\",\"f\"]" = ["a", "b", "c", "d", "+2"] := by
  refine ⟨fun l h => ?_, fun h hraw => ?_, fun h => ?_, fun h => ?_, rfl, rfl, rfl⟩
  · simp [genrePillTexts, h]
  · simp [genrePillTexts, h, hraw]
  · rw [renderGenrePills]
    simp [List.take_of_length_le h, Nat.not_lt.mpr h]
  · rw [renderGenrePills]
    simp [h]

/-- C5 witness: the CSV-fallback branch applied at the scenario input. -/
theorem c5_genre_pills_witness :
    genrePillTexts "A, B, C" = (((splitOnComma ("A, B, C").data).map
      (fun l => jsTrim (String.mk l))).filter (fun s => decide (s ≠ ""))) :=
  (c5_genre_pills "A, B, C").2.1 rfl (by decide)

/-- C6: the date label is empty for an empty input, echoes an unparseable
input unchanged, and maps every parseable timestamp into exactly one of the
five buckets cut at 60 s, 1 h, 24 h and 7 d on the floored elapsed seconds,
half-open at the lower bound — in particular an elapsed time of exactly 60
seconds renders as "Updated 1m ago", not "just now". -/
theorem c6_date_formatter (dateOf : String → Option Int) (fmt : Int → String)
    (now : Int) (raw : String) :
    formatUpdated dateOf fmt now "" = "" ∧
    (raw ≠ "" → dateOf raw = none → formatUpdated dateOf fmt now raw = raw) ∧
    (∀ t, raw ≠ "" → dateOf raw = some t → (now - t).fdiv 1000 < 60 →
      formatUpdated dateOf fmt now raw = "Updated just now") ∧
    (∀ t, raw ≠ "" → dateOf raw = some t →
      60 ≤ (now - t).fdiv 1000 → (now - t).fdiv 1000 < 3600 →
      formatUpdated dateOf fmt now raw
        = "Updated " ++ toString (((now - t).fdiv 1000).fdiv 60) ++ "m ago") ∧
    (∀ t, raw ≠ "" → dateOf raw = some t →
      3600 ≤ (now - t).fdiv 1000 → (now - t).fdiv 1000 < 86400 →
      formatUpdated dateOf fmt now raw
        = "Updated " ++ toString (((now - t).fdiv 1000).fdiv 3600) ++ "h ago") ∧
    (∀ t, raw ≠ "" → dateOf raw = some t →
      86400 ≤ (now - t).fdiv 1000 → (now - t).fdiv 1000 < 604800 →
      formatUpdated dateOf fmt now raw
        = "Updated " ++ toString (((now - t).fdiv 1000).fdiv 86400) ++ " days ago") ∧
    (∀ t, raw ≠ "" → dateOf raw = some t → 604800 ≤ (now - t).fdiv 1000 →
      formatUpdated dateOf fmt now raw = "Updated " ++ fmt t) ∧
    (∀ t, raw ≠ "" → dateOf raw = some t → (now - t).fdiv 1000 = 60 →
      formatUpdated dateOf fmt now raw = "Updated 1m ago") := by
  refine ⟨rfl, fun hraw hd => ?_, fun t hraw hd h1 => ?_, fun t hraw hd h1 h2 => ?_,
    fun t hraw hd h1 h2 => ?_, fun t hraw hd h1 h2 => ?_, fun t hraw hd h1 => ?_,
    fun t hraw hd h60 => ?_⟩
  · rw [formatUpdated, if_neg hraw, hd]
  · rw [formatUpdated, if_neg hraw, hd]
    simp only [if_pos h1]
  · rw [formatUpdated, if_neg hraw, hd]
    simp only [if_neg (not_lt.mpr h1), if_pos h2]
  · rw [formatUpdated, if_neg hraw, hd]
    simp only [if_neg (by omega : ¬ ((now - t).fdiv 1000 < 60)),
      if_neg (not_lt.mpr h1), if_pos h2]
  · rw [formatUpdated, if_neg hraw, hd]
    simp only [if_neg (by omega : ¬ ((now - t).fdiv 1000 < 60)),
      if_neg (by omega : ¬ ((now - t).fdiv 1000 < 3600)),
      if_neg (not_lt.mpr h1),
      if_pos (by omega : (now - t).fdiv 1000 < 7 * 86400)]
  · rw [formatUpdated, if_neg hraw, hd]
    simp only [if_neg (by omega : ¬ ((now - t).fdiv 1000 < 60)),
      if_neg (by omega : ¬ ((now - t).fdiv 1000 < 3600)),
      if_neg (by omega : ¬ ((now - t).fdiv 1000 < 86400)),
      if_neg (by omega : ¬ ((now - t).fdiv 1000 < 7 * 86400))]
  · rw [formatUpdated, if_neg hraw, hd]
    simp only [h60, if_neg (by decide : ¬ ((60 : Int) < 60)),
      if_pos (by decide : (60 : Int) < 3600)]
    decide

/-- C6 witness: a timestamp exactly 60 seconds old renders in the minutes
bucket. -/
theorem c6_date_formatter_witness :
    formatUpdated (fun _ => some 0) (fun _ => "Oct 1") 60000 "2022-11-03T07:00:00.000Z"
      = "Updated 1m ago" :=
  (c6_date_formatter (fun _ => some 0) (fun _ => "Oct 1") 60000
    "2022-11-03T07:00:00.000Z").2.2.2.2.2.2.2 0 (by decide) rfl (by decide)

/-- C8: the emitted selection id is the first non-empty attribute among
`pid`, `id`, `data-id` (so `pid` wins whenever it is non-empty); when all
three are absent or empty nothing is emitted; Enter and space emit exactly
what a click emits, and any other key emits nothing. -/
theorem c8_selection (pid idAttr dataId : Option String) :
    emittedId pid idAttr dataId = specFirstNonEmpty [pid, idAttr, dataId] ∧
    (∀ p, pid = some p → p ≠ "" → emittedId pid idAttr dataId = some p) ∧
    (pid.getD "" = "" → idAttr.getD "" = "" → dataId.getD "" = "" →
      emittedId pid idAttr dataId = none) ∧
    (∀ key, key = "Enter" ∨ key = " " →
      keyEmittedId key pid idAttr dataId = emittedId pid idAttr dataId) ∧
    (∀ key, key ≠ "Enter" → key ≠ " " → keyEmittedId key pid idAttr dataId = none) := by
  refine ⟨?_, fun p hp hpne => ?_, fun h1 h2 h3 => ?_, fun key hk => ?_, fun key h1 h2 => ?_⟩
  · rw [show emittedId pid idAttr dataId = emitOf (jsOrStr (jsOrStr pid idAttr) dataId)
      from rfl]
    rw [emitOf_jsOrStr, emitOf_jsOrStr, specFirstNonEmpty_eq, Option.or_assoc]
  · subst hp
    simp [emittedId, jsOrStr, hpne]
  · cases pid <;> cases idAttr <;> cases dataId <;> simp_all [emittedId, jsOrStr]
  · rw [keyEmittedId, if_pos hk]
  · rw [keyEmittedId, if_neg (by simp [h1, h2])]

/-- C8 witness: with both `pid` and `id` set, the emitted id is the value of
`pid`. -/
theorem c8_selection_witness :
    emittedId (some "10716") (some "card-3") none = some "10716" :=
  (c8_selection (some "10716") (some "card-3") none).2.1 "10716" rfl (by decide)

/-- C9 counterexample to the claim as stated: a `data:` source that is not
the placeholder is left untouched by the error handler, although the claim
demands a swap for every source other than the placeholder. -/
theorem c9_counterexample :
    "data:text/plain,x" ≠ placeholderDataURI 450 300 ∧
    handleImgErr "data:text/plain,x" = "data:text/plain,x" := by
  exact ⟨by decide, rfl⟩

/-- C9 (amended): on a load error the handler swaps to the deterministic
placeholder exactly when the current source is empty or not a `data:` URI;
any `data:` source — in particular the placeholder itself — is never
replaced, so the swap happens at most once and a failing placeholder is
never retried. -/
theorem c9_image_fallback (src : String) :
    (src = "" ∨ jsStartsWith src "data:" = false →
      handleImgErr src = placeholderDataURI 450 300) ∧
    (src ≠ "" → jsStartsWith src "data:" = true → handleImgErr src = src) ∧
    handleImgErr (placeholderDataURI 450 300) = placeholderDataURI 450 300 ∧
    handleImgErr (handleImgErr src) = handleImgErr src := by
  have hph : handleImgErr (placeholderDataURI 450 300) = placeholderDataURI 450 300 := by
    rw [handleImgErr, if_neg (by decide)]
  refine ⟨fun h => ?_, fun h1 h2 => ?_, hph, ?_⟩
  · rw [handleImgErr, if_pos (by rcases h with h | h; exacts [Or.inl h, Or.inr (by simp [h])])]
  · rw [handleImgErr, if_neg (by simp [h1, h2])]
  · by_cases h : src = "" ∨ ¬ jsStartsWith src "data:" = true
    · have hsrc : handleImgErr src = placeholderDataURI 450 300 := by
        rw [handleImgErr, if_pos h]
      rw [hsrc]
      exact hph
    · have hsrc : handleImgErr src = src := by
        rw [handleImgErr, if_neg h]
      rw [hsrc]
      exact hsrc

/-- C9 witness: a broken non-`data:` cover URL is swapped to the
placeholder. -/
theorem c9_image_fallback_witness :
    handleImgErr "https://example.org/cover.png" = placeholderDataURI 450 300 :=
  (c9_image_fallback "https://example.org/cover.png").1 (Or.inr (by decide))

/-- C10: a `genres` attribute that is valid JSON but not an array renders
zero pills — the CSV fallback runs only when parsing throws, never on a
successful non-array parse. -/
theorem c10_non_array_json (raw : String) :
    (∀ v, jsonParse raw = some v → isJsonArr v = false → renderGenrePills raw = []) ∧
    renderGenrePills "5" = [] ∧
    renderGenrePills "\"a\"" = [] ∧
    renderGenrePills "\x7b\x7d" = [] := by
  refine ⟨fun v h hv => ?_, rfl, rfl, rfl⟩
  rw [renderGenrePills]
  have hempty : genrePillTexts raw = [] := by
    rw [genrePillTexts, h]
    cases v <;> simp_all [isJsonArr]
  simp [hempty]

/-- C10 witness: the general non-array branch applied at the JSON number
input `"5"`. -/
theorem c10_non_array_json_witness : renderGenrePills "5" = [] :=
  (c10_non_array_json "5").1 (Json.num "5") rfl rfl

/-- C7 witness: the singular and plural branches at concrete inputs. -/
theorem c7_seasons_label_witness :
    seasonsLabel "1" = "1" ++ " season" ∧ seasonsLabel "14" = "14" ++ " seasons" :=
  ⟨((c7_seasons_label "1").2 (by decide)).1.mpr rfl,
   ((c7_seasons_label "14").2 (by decide)).2 (by decide)⟩

end Podcast
